import Mathlib

/-!
# Verification of the multi-object tracking core

Shallow embedding of the tracking engine of this repository
(`src/tracking/kalman_filter.py`, `src/tracking/bytetrack.py`,
`src/tracking/tracking_manager.py`) over exact rational arithmetic.

Python floats are modelled by exact rational arithmetic over `Frac`,
a normalised numerator/denominator pair (Mathlib's `ℚ` is kept for
spec-side statements and related to `Frac` by `Frac.toRat`); numpy
vectors and matrices by `List Frac` and `List (List Frac)`; Python lists
of mutable `Track` objects by
a pool of values indexed by position (within one `update` call all
aliasing goes through that pool); fallible code returns `Except`.
External collaborators (the `lap`/`scipy` assignment solvers,
`cv2.pointPolygonTest`) are parameters of the embedding; the repository's
own greedy fallback matcher is embedded concretely.
-/

/-! ## Exact rational arithmetic

A small computable fraction type: numerator, positive denominator,
normalised by `Nat.gcd` after every operation. All operations are
structurally recursive, so concrete runs of the embedding reduce inside
the kernel. -/

structure Frac where
  num : ℤ
  den : ℕ
deriving DecidableEq

/-- Build a normalised fraction `n / d` (for `d ≠ 0`). -/
def mkQ (n d : ℤ) : Frac :=
  if d = 0 then ⟨0, 0⟩
  else
    let n1 := if d < 0 then -n else n
    let d1 := d.natAbs
    let g := Nat.gcd n1.natAbs d1
    ⟨n1 / (g : ℤ), d1 / g⟩

instance (n : ℕ) : OfNat Frac n := ⟨⟨(n : ℤ), 1⟩⟩

instance : Neg Frac := ⟨fun x => ⟨-x.num, x.den⟩⟩

instance : Add Frac :=
  ⟨fun x y => mkQ (x.num * y.den + y.num * x.den) ((x.den : ℤ) * y.den)⟩

instance : Sub Frac :=
  ⟨fun x y => mkQ (x.num * y.den - y.num * x.den) ((x.den : ℤ) * y.den)⟩

instance : Mul Frac := ⟨fun x y => mkQ (x.num * y.num) ((x.den : ℤ) * y.den)⟩

instance : Div Frac := ⟨fun x y => mkQ (x.num * y.den) ((x.den : ℤ) * y.num)⟩

def qltB (x y : Frac) : Bool := x.num * y.den < y.num * x.den

def qleB (x y : Frac) : Bool := x.num * y.den ≤ y.num * x.den

instance : LT Frac := ⟨fun x y => qltB x y = true⟩

instance : LE Frac := ⟨fun x y => qleB x y = true⟩

instance (x y : Frac) : Decidable (x < y) :=
  inferInstanceAs (Decidable (qltB x y = true))

instance (x y : Frac) : Decidable (x ≤ y) :=
  inferInstanceAs (Decidable (qleB x y = true))

instance : Max Frac := ⟨fun x y => if qleB x y then y else x⟩

instance : Min Frac := ⟨fun x y => if qleB x y then x else y⟩

def qpow (x : Frac) : ℕ → Frac
  | 0 => 1
  | n + 1 => qpow x n * x

instance : HPow Frac ℕ Frac := ⟨qpow⟩

/-- Spec-side interpretation of a fraction as a Mathlib rational. -/
def Frac.toRat (x : Frac) : ℚ := (x.num : ℚ) / (x.den : ℚ)

/-! ## Rational vectors and matrices (numpy arrays of the source) -/

abbrev Vec := List Frac

abbrev Mat := List (List Frac)

def dotQ (xs ys : Vec) : Frac := (List.zipWith (· * ·) xs ys).sum

def vecAdd (xs ys : Vec) : Vec := List.zipWith (· + ·) xs ys

def vecSub (xs ys : Vec) : Vec := List.zipWith (· - ·) xs ys

def transposeM (A : Mat) : Mat :=
  (List.range (A.headD []).length).map (fun j => A.map (fun r => r.getD j 0))

def matVec (A : Mat) (v : Vec) : Vec := A.map (fun r => dotQ r v)

def matMul (A B : Mat) : Mat :=
  let Bt := transposeM B
  A.map (fun r => Bt.map (fun c => dotQ r c))

def matAdd (A B : Mat) : Mat := List.zipWith vecAdd A B

def matSub (A B : Mat) : Mat := List.zipWith vecSub A B

/-- `np.diag` of a vector. -/
def diagM (xs : Vec) : Mat :=
  (List.range xs.length).map (fun i =>
    (List.range xs.length).map (fun j => if i = j then xs.getD i 0 else 0))

def entry (A : Mat) (i j : ℕ) : Frac := (A.getD i []).getD j 0

/-- Matrix with row `i` and column `j` removed (for cofactors). -/
def minorM (A : Mat) (i j : ℕ) : Mat := (A.eraseIdx i).map (fun r => r.eraseIdx j)

def det3 (A : Mat) : Frac :=
  entry A 0 0 * (entry A 1 1 * entry A 2 2 - entry A 1 2 * entry A 2 1)
  - entry A 0 1 * (entry A 1 0 * entry A 2 2 - entry A 1 2 * entry A 2 0)
  + entry A 0 2 * (entry A 1 0 * entry A 2 1 - entry A 1 1 * entry A 2 0)

def det4 (A : Mat) : Frac :=
  entry A 0 0 * det3 (minorM A 0 0)
  - entry A 0 1 * det3 (minorM A 0 1)
  + entry A 0 2 * det3 (minorM A 0 2)
  - entry A 0 3 * det3 (minorM A 0 3)

/-- Inverse of a 4×4 matrix by the adjugate formula; on invertible input this
is the value `np.linalg.inv` computes. -/
def inv4 (A : Mat) : Mat :=
  let d := det4 A
  (List.range 4).map (fun i =>
    (List.range 4).map (fun j => (-1 : Frac) ^ (i + j) * det3 (minorM A j i) / d))

/-! ## Kalman filter (`src/tracking/kalman_filter.py`)

State `[cx, cy, a, h, vcx, vcy, va, vh]`, measurement `[cx, cy, a, h]`. -/

def stdWeightPosition : Frac := 1 / 20

def stdWeightVelocity : Frac := 1 / 160

/-- State transition matrix `F` (constant velocity, `dt = 1`). -/
def kfF : Mat :=
  [[1,0,0,0,1,0,0,0],
   [0,1,0,0,0,1,0,0],
   [0,0,1,0,0,0,1,0],
   [0,0,0,1,0,0,0,1],
   [0,0,0,0,1,0,0,0],
   [0,0,0,0,0,1,0,0],
   [0,0,0,0,0,0,1,0],
   [0,0,0,0,0,0,0,1]]

/-- Measurement matrix `H` (observe position and size only). -/
def kfH : Mat :=
  [[1,0,0,0,0,0,0,0],
   [0,1,0,0,0,0,0,0],
   [0,0,1,0,0,0,0,0],
   [0,0,0,1,0,0,0,0]]

/-- `KalmanFilter.initiate`: velocities start at 0, diagonal covariance with
standard deviations scaled by the measured height. -/
def kfInitiate (m : Vec) : Vec × Mat :=
  let h := m.getD 3 0
  let mean := m.take 4 ++ [0, 0, 0, 0]
  let std : Vec :=
    [2 * stdWeightPosition * h, 2 * stdWeightPosition * h, 1/100,
     2 * stdWeightPosition * h,
     10 * stdWeightVelocity * h, 10 * stdWeightVelocity * h, 1/100000,
     10 * stdWeightVelocity * h]
  (mean, diagM (std.map (fun s => s * s)))

/-- `KalmanFilter.predict`: `mean' = F·mean`,
`cov' = F·cov·Fᵀ + motion_cov`, motion noise rescaled by current height. -/
def kfPredict (mean : Vec) (cov : Mat) : Vec × Mat :=
  let h := mean.getD 3 0
  let std : Vec :=
    [stdWeightPosition * h, stdWeightPosition * h, 1/100, stdWeightPosition * h,
     stdWeightVelocity * h, stdWeightVelocity * h, 1/100000, stdWeightVelocity * h]
  let motionCov := diagM (std.map (fun s => s * s))
  (matVec kfF mean, matAdd (matMul (matMul kfF cov) (transposeM kfF)) motionCov)

/-- `KalmanFilter.update`: standard linear correction, measurement noise
rescaled by current height. -/
def kfUpdate (mean : Vec) (cov : Mat) (z : Vec) : Vec × Mat :=
  let h := mean.getD 3 0
  let std : Vec := [stdWeightPosition * h, stdWeightPosition * h, 1/10,
                    stdWeightPosition * h]
  let innovationCov := diagM (std.map (fun s => s * s))
  let projectedMean := matVec kfH mean
  let projectedCov := matAdd (matMul (matMul kfH cov) (transposeM kfH)) innovationCov
  let kalmanGain := matMul (matMul cov (transposeM kfH)) (inv4 projectedCov)
  let innovation := vecSub z projectedMean
  let newMean := vecAdd mean (matVec kalmanGain innovation)
  let newCov := matSub cov (matMul (matMul kalmanGain kfH) cov)
  (newMean, newCov)

/-! ## Track (`src/tracking/bytetrack.py`, `TrackState` / `Track`)

The source's `Track._count` is a module-global mutable counter; it is
modelled by threading an explicit `count : ℕ` through the operations
that read or write it (`Track.next_id`, `ByteTracker.__init__`,
`ByteTracker.reset`). -/

inductive TrackState where
  | New
  | Tracked
  | Lost
  | Removed
deriving DecidableEq

structure Track where
  track_id : ℕ
  bbox : Vec
  score : Frac
  class_id : ℤ
  state : TrackState := .Tracked
  is_activated : Bool := false
  frame_id : ℕ := 0
  tracklet_len : ℕ := 0
  start_frame : ℕ := 0
  mean : Option Vec := none
  covariance : Option Mat := none
  history : List Vec := []
deriving DecidableEq

instance : Inhabited Track :=
  ⟨{ track_id := 0, bbox := [], score := 0, class_id := 0 }⟩

/-- `Track._xyxy_to_xyah`. -/
def xyxyToXyah (bbox : Vec) : Vec :=
  let x1 := bbox.getD 0 0
  let y1 := bbox.getD 1 0
  let x2 := bbox.getD 2 0
  let y2 := bbox.getD 3 0
  let w := x2 - x1
  let h := y2 - y1
  let cx := x1 + w / 2
  let cy := y1 + h / 2
  let aspectRatio := if h > 0 then w / h else 1
  [cx, cy, aspectRatio, h]

/-- `Track.next_id`: increments the global counter and returns it. -/
def nextId (count : ℕ) : ℕ × ℕ := (count + 1, count + 1)

/-- `Track.activate`. -/
def activate (t : Track) (count : ℕ) (frame_id : ℕ) : Track × ℕ :=
  let (tid, count1) := nextId count
  let (mean, cov) := kfInitiate (xyxyToXyah t.bbox)
  ({ t with
      track_id := tid, tracklet_len := 0, state := .Tracked,
      is_activated := true, frame_id := frame_id, start_frame := frame_id,
      mean := some mean, covariance := some cov }, count1)

/-- `Track.re_activate`. Note the source does not refresh `bbox` here. -/
def reActivate (t newTrack : Track) (frame_id : ℕ) (newIdFlag : Bool)
    (count : ℕ) : Track × ℕ :=
  let (mean, cov) :=
    kfUpdate (t.mean.getD []) (t.covariance.getD []) (xyxyToXyah newTrack.bbox)
  let (tid, count1) := if newIdFlag then nextId count else (t.track_id, count)
  ({ t with
      mean := some mean, covariance := some cov, tracklet_len := 0,
      state := .Tracked, is_activated := true, frame_id := frame_id,
      track_id := tid, score := newTrack.score }, count1)

/-- `Track.update`. -/
def trackUpdate (t newTrack : Track) (frame_id : ℕ) : Track :=
  let (mean, cov) :=
    kfUpdate (t.mean.getD []) (t.covariance.getD []) (xyxyToXyah newTrack.bbox)
  { t with
      frame_id := frame_id, tracklet_len := t.tracklet_len + 1,
      mean := some mean, covariance := some cov, state := .Tracked,
      is_activated := true, score := newTrack.score, bbox := newTrack.bbox,
      history := t.history ++ [newTrack.bbox] }

/-- `Track.predict`: zero the height-velocity component when not `Tracked`,
then apply the Kalman prediction. -/
def trackPredict (t : Track) : Track :=
  let m0 := t.mean.getD []
  let m1 := if t.state ≠ .Tracked then m0.set 7 0 else m0
  let (mean, cov) := kfPredict m1 (t.covariance.getD [])
  { t with mean := some mean, covariance := some cov }

/-- `Track.mark_lost`. -/
def markLost (t : Track) : Track := { t with state := .Lost }

/-- `Track.mark_removed`. -/
def markRemoved (t : Track) : Track := { t with state := .Removed }

/-- `Track.tlwh` property: Kalman-smoothed box when a motion state exists. -/
def tlwh (t : Track) : Vec :=
  match t.mean with
  | none =>
      let r := t.bbox
      [r.getD 0 0, r.getD 1 0, r.getD 2 0 - r.getD 0 0, r.getD 3 0 - r.getD 1 0]
  | some m =>
      let w := m.getD 2 0 * m.getD 3 0
      let h := m.getD 3 0
      [m.getD 0 0 - w / 2, m.getD 1 0 - h / 2, w, h]

/-- `Track.tlbr` property. -/
def tlbr (t : Track) : Vec :=
  let r := tlwh t
  [r.getD 0 0, r.getD 1 0, r.getD 2 0 + r.getD 0 0, r.getD 3 0 + r.getD 1 0]

/-! ## ByteTracker (`src/tracking/bytetrack.py`, `ByteTracker`) -/

/-- Input `Detection` (`src/ai/detection_models.py`); only the fields the
tracker reads. -/
structure Detection where
  bbox : Vec
  confidence : Frac
  class_id : ℤ
deriving DecidableEq

/-- `ByteTracker._bbox_iou`. -/
def bboxIou (box1 box2 : Vec) : Frac :=
  let x1 := max (box1.getD 0 0) (box2.getD 0 0)
  let y1 := max (box1.getD 1 0) (box2.getD 1 0)
  let x2 := min (box1.getD 2 0) (box2.getD 2 0)
  let y2 := min (box1.getD 3 0) (box2.getD 3 0)
  let interArea := max 0 (x2 - x1) * max 0 (y2 - y1)
  let box1Area := (box1.getD 2 0 - box1.getD 0 0) * (box1.getD 3 0 - box1.getD 1 0)
  let box2Area := (box2.getD 2 0 - box2.getD 0 0) * (box2.getD 3 0 - box2.getD 1 0)
  let unionArea := box1Area + box2Area - interArea
  if unionArea = 0 then 0 else interArea / unionArea

/-- `ByteTracker._iou_distance`: tracks contribute their `tlbr` (smoothed),
detections their raw `bbox`. -/
def iouDistance (tracks dets : List Track) : Mat :=
  tracks.map (fun t => dets.map (fun d => bboxIou (tlbr t) d.bbox))

/-- Descending order on `(iou, i, j)` triples: Python's
`list.sort(reverse=True)` on tuples. -/
def tripleGE (a b : Frac × ℕ × ℕ) : Bool :=
  decide (b.1 < a.1 ∨ (b.1 = a.1 ∧ (b.2.1 < a.2.1 ∨ (b.2.1 = a.2.1 ∧ b.2.2 ≤ a.2.2))))

def insertDesc (x : Frac × ℕ × ℕ) : List (Frac × ℕ × ℕ) → List (Frac × ℕ × ℕ)
  | [] => [x]
  | y :: ys => if tripleGE x y then x :: y :: ys else y :: insertDesc x ys

def sortDesc (l : List (Frac × ℕ × ℕ)) : List (Frac × ℕ × ℕ) :=
  l.foldr insertDesc []

/-- The repository's greedy fallback matcher (`_matching`, Method 3):
collect all pairs with IoU ≥ `thresh`, sort by IoU descending, greedily
assign unused rows/columns. -/
def greedyAssign (iou : Mat) (thresh : Frac) : List (ℕ × ℕ) :=
  let nT := iou.length
  let nD := (iou.headD []).length
  let cands := (List.range nT).flatMap (fun i =>
    (List.range nD).filterMap (fun j =>
      if entry iou i j ≥ thresh then some (entry iou i j, i, j) else none))
  let sorted := sortDesc cands
  (sorted.foldl (fun (st : List (ℕ × ℕ) × List ℕ × List ℕ) c =>
      let (_, i, j) := c
      if ¬ st.2.1.contains i ∧ ¬ st.2.2.contains j then
        (st.1 ++ [(i, j)], st.2.1 ++ [i], st.2.2 ++ [j])
      else st)
    ([], [], [])).1

/-- An assignment solver: `lap.lapjv` / `scipy.optimize.linear_sum_assignment`
are external collaborators abstracted as a function from the IoU matrix and
threshold to the match list; `greedyAssign` is the concrete in-repo fallback. -/
abbrev Assign := Mat → Frac → List (ℕ × ℕ)

/-- Error raised by `_matching` when the match list is empty while both
inputs are nonempty: `np.array([])` has shape `(0,)`, so `matches[:, 0]`
raises `IndexError`. -/
def matchingIndexError : String :=
  "IndexError: too many indices for array of shape (0,)"

/-- `ByteTracker._matching`. -/
def matching (assign : Assign) (tracks dets : List Track) (thresh : Frac) :
    Except String (List (ℕ × ℕ) × List ℕ × List ℕ) :=
  if tracks.length = 0 ∨ dets.length = 0 then
    .ok ([], List.range tracks.length, List.range dets.length)
  else
    let iou := iouDistance tracks dets
    let matchList := assign iou thresh
    if matchList.isEmpty then .error matchingIndexError
    else
      .ok (matchList,
        (List.range tracks.length).filter
          (fun i => ¬ (matchList.map Prod.fst).contains i),
        (List.range dets.length).filter
          (fun j => ¬ (matchList.map Prod.snd).contains j))

/-- Pool read: Python list indexing (indices produced by the algorithm are
always in range). -/
def poolGet (pool : List Track) (i : ℕ) : Track := pool.getD i default

/-- `ByteTracker._joint_tracks` on pool indices: appends all of the first
list, then members of the second whose `track_id` was not seen yet. -/
def jointIdx (pool : List Track) (la lb : List ℕ) : List ℕ :=
  (lb.foldl (fun (st : List ℕ × List ℕ) i =>
      let tid := (poolGet pool i).track_id
      if st.1.contains tid then st else (st.1 ++ [tid], st.2 ++ [i]))
    (la.map (fun i => (poolGet pool i).track_id), la)).2

/-- `ByteTracker._sub_tracks` on pool indices against a list of track values. -/
def subIdx (pool : List Track) (la : List ℕ) (lb : List Track) : List ℕ :=
  la.filter (fun i => ¬ (lb.map Track.track_id).contains (poolGet pool i).track_id)

structure TrackerConfig where
  track_thresh : Frac := 1/2
  track_buffer : ℕ := 30
  match_thresh : Frac := 4/5
  frame_rate : ℕ := 30
deriving DecidableEq

structure BTState where
  track_thresh : Frac
  track_buffer : ℕ
  match_thresh : Frac
  frame_rate : ℕ
  tracked_tracks : List Track
  lost_tracks : List Track
  removed_tracks : List Track
  frame_id : ℕ
  max_time_lost : ℕ
deriving DecidableEq

/-- `ByteTracker.__init__`. `max_time_lost = int(frame_rate / 30.0 *
track_buffer)` is, in exact arithmetic, the floor `frame_rate *
track_buffer / 30` (ℕ division). The second component is the new value of
the global `Track._count`, which the constructor resets to 0. -/
def byteTrackerInit (cfg : TrackerConfig) : BTState × ℕ :=
  ({ track_thresh := cfg.track_thresh, track_buffer := cfg.track_buffer,
     match_thresh := cfg.match_thresh, frame_rate := cfg.frame_rate,
     tracked_tracks := [], lost_tracks := [], removed_tracks := [],
     frame_id := 0,
     max_time_lost := cfg.frame_rate * cfg.track_buffer / 30 }, 0)

/-- `ByteTracker.reset`: clears the pools and the global counter. -/
def btReset (s : BTState) : BTState × ℕ :=
  ({ s with frame_id := 0, tracked_tracks := [], lost_tracks := [],
            removed_tracks := [] }, 0)

/-- High-confidence partition of `update`: `det_scores > self.track_thresh`
(strict, per the source). -/
def classifyHigh (dets : List Detection) (thresh : Frac) : List Detection :=
  dets.filter (fun d => thresh < d.confidence)

/-- Second-stage partition of `update`:
`(det_scores > 0.1) ∧ (det_scores < self.track_thresh)` (both strict). -/
def classifySecond (dets : List Detection) (thresh : Frac) : List Detection :=
  dets.filter (fun d => (1:Frac)/10 < d.confidence ∧ d.confidence < thresh)

/-- A detection wrapped as a pre-activation `Track`, as in `update`. -/
def mkDetTrack (d : Detection) (frame_id : ℕ) : Track :=
  { track_id := 0, bbox := d.bbox, score := d.confidence,
    class_id := d.class_id, frame_id := frame_id }

/-- The removal test of `update` (line 358):
`self.frame_id - track.frame_id > self.max_time_lost`. -/
def isExpired (frame_id max_time_lost : ℕ) (t : Track) : Bool :=
  decide ((frame_id : ℤ) - (t.frame_id : ℤ) > (max_time_lost : ℤ))

/-- The removal loop of `update` (lines 356-360): marks expired lost tracks
`Removed` and appends them to `removed_tracks` (the accumulator argument). -/
def removeExpired (frame_id max_time_lost : ℕ) (pool : List Track)
    (lostIdx : List ℕ) (removedAcc : List Track) : List Track × List Track :=
  lostIdx.foldl (fun (pr : List Track × List Track) li =>
      let t := poolGet pr.1 li
      if isExpired frame_id max_time_lost t then
        (pr.1.set li (markRemoved t), pr.2 ++ [markRemoved t])
      else pr)
    (pool, removedAcc)

/-- The lost-pool eviction filter of `update` (line 366):
`[t for t in self.lost_tracks if t.state == TrackState.Lost]`. -/
def filterLostIdx (pool : List Track) (lostIdx : List ℕ) : List ℕ :=
  lostIdx.filter (fun i => (poolGet pool i).state = .Lost)

/-- `ByteTracker.update` (lines 214-374).

Mutable `Track` objects shared between the tracker's lists and the local
lists of one call are modelled by a value pool (`pool`) indexed by
position; the local lists (`strack_pool`, `r_tracked_stracks`,
`unconfirmed`, the detection lists, `tracked_stracks`) become lists of
pool indices, and in-place mutation becomes `List.set` on the pool.
Returns the new global `Track._count`, the new tracker state and the
output track list, or the propagated exception from `_matching` (on the
exception path the Python object is left partially mutated —
`self.frame_id` was already incremented — which this value-level model
does not track, since no claim reads state after a raise). -/
def btUpdate (assign : Assign) (count : ℕ) (s : BTState)
    (dets : List Detection) : Except String (ℕ × BTState × List Track) :=
  let frame_id := s.frame_id + 1
  let detections_high := (classifyHigh dets s.track_thresh).map
    (fun d => mkDetTrack d frame_id)
  let detections_second := (classifySecond dets s.track_thresh).map
    (fun d => mkDetTrack d frame_id)
  let nT := s.tracked_tracks.length
  let nL := s.lost_tracks.length
  let pool0 : List Track :=
    s.tracked_tracks ++ s.lost_tracks ++ detections_high ++ detections_second
  let trackedIdx := List.range nT
  let lostIdx := (List.range nL).map (· + nT)
  let dHighIdx := (List.range detections_high.length).map (· + nT + nL)
  let dSecIdx := (List.range detections_second.length).map
    (· + nT + nL + detections_high.length)
  let unconfirmedIdx := trackedIdx.filter (fun i => ¬ (poolGet pool0 i).is_activated)
  let trackedSIdx := trackedIdx.filter (fun i => (poolGet pool0 i).is_activated)
  let strackPoolIdx := jointIdx pool0 trackedSIdx lostIdx
  let pool1 := strackPoolIdx.foldl (fun p i => p.set i (trackPredict (poolGet p i))) pool0
  match matching assign (strackPoolIdx.map (poolGet pool1))
      (dHighIdx.map (poolGet pool1)) s.match_thresh with
  | .error e => .error e
  | .ok (m1, uTrack, uDet) =>
    let pool2 := m1.foldl (fun p m =>
        let ti := strackPoolIdx.getD m.1 0
        let di := dHighIdx.getD m.2 0
        let tr := poolGet p ti
        let de := poolGet p di
        if tr.state = .Tracked then p.set ti (trackUpdate tr de frame_id)
        else p.set ti (reActivate tr de frame_id false count).1)
      pool1
    let rTrackedIdx := uTrack.filterMap (fun i =>
        let pi := strackPoolIdx.getD i 0
        if (poolGet pool2 pi).state = .Tracked then some pi else none)
    match matching assign (rTrackedIdx.map (poolGet pool2))
        (dSecIdx.map (poolGet pool2)) ((1:Frac)/2) with
    | .error e => .error e
    | .ok (m2, uTrack2, _uDet2) =>
      let pool3 := m2.foldl (fun p m =>
          let ti := rTrackedIdx.getD m.1 0
          let di := dSecIdx.getD m.2 0
          let tr := poolGet p ti
          let de := poolGet p di
          if tr.state = .Tracked then p.set ti (trackUpdate tr de frame_id)
          else p.set ti (reActivate tr de frame_id false count).1)
        pool2
      let pool4 := uTrack2.foldl (fun p it =>
          let pi := rTrackedIdx.getD it 0
          let tr := poolGet p pi
          if tr.state ≠ .Lost then p.set pi (markLost tr) else p)
        pool3
      let dHighIdx2 := uDet.map (fun i => dHighIdx.getD i 0)
      match matching assign (unconfirmedIdx.map (poolGet pool4))
          (dHighIdx2.map (poolGet pool4)) ((7:Frac)/10) with
      | .error e => .error e
      | .ok (m3, _uUnconfirmed, uDet3) =>
        let pool5 := m3.foldl (fun p m =>
            let ui := unconfirmedIdx.getD m.1 0
            let di := dHighIdx2.getD m.2 0
            p.set ui (trackUpdate (poolGet p ui) (poolGet p di) frame_id))
          pool4
        let actRes := uDet3.foldl
          (fun (st : List Track × ℕ × List ℕ) inew =>
            let di := dHighIdx2.getD inew 0
            let tr := poolGet st.1 di
            if tr.score < s.track_thresh then st
            else
              let (tr1, c1) := activate tr st.2.1 frame_id
              (st.1.set di tr1, c1, st.2.2 ++ [di]))
          (pool5, count, [])
        let pool6 := actRes.1
        let count1 := actRes.2.1
        let trackedSIdx2 := trackedSIdx ++ actRes.2.2
        let rem := removeExpired frame_id s.max_time_lost pool6 lostIdx
          s.removed_tracks
        let pool7 := rem.1
        let removed1 := rem.2
        let tracked1 := trackedIdx.filter (fun i => (poolGet pool7 i).state = .Tracked)
        let tracked2 := jointIdx pool7 tracked1 trackedSIdx2
        let tracked3 := jointIdx pool7 tracked2 unconfirmedIdx
        let lost1 := filterLostIdx pool7 lostIdx
        let lost2 := subIdx pool7 lost1 (tracked3.map (poolGet pool7))
        let lost3 := lost2 ++ trackedSIdx2.filter (fun i => (poolGet pool7 i).state = .Lost)
        let lost4 := subIdx pool7 lost3 removed1
        let trackedFinal := tracked3.map (poolGet pool7)
        let lostFinal := lost4.map (poolGet pool7)
        let outputTracks := trackedFinal.filter (fun t => t.is_activated)
        .ok (count1,
          { s with
              tracked_tracks := trackedFinal, lost_tracks := lostFinal,
              removed_tracks := removed1, frame_id := frame_id },
          outputTracks)

/-- Feed a sequence of per-frame detection lists through one tracker
instance, collecting each frame's output. -/
def runFrames (assign : Assign) (count : ℕ) (s : BTState) :
    List (List Detection) → Except String (ℕ × BTState × List (List Track))
  | [] => .ok (count, s, [])
  | f :: fs =>
    match btUpdate assign count s f with
    | .error e => .error e
    | .ok (c1, s1, out) =>
      match runFrames assign c1 s1 fs with
      | .error e => .error e
      | .ok (c2, s2, outs) => .ok (c2, s2, out :: outs)

/-- A complete run: construct the tracker (resetting the global id counter,
as `__init__` does) and process the frames. -/
def runTracker (assign : Assign) (cfg : TrackerConfig)
    (frames : List (List Detection)) : Except String (ℕ × BTState × List (List Track)) :=
  let (s, c) := byteTrackerInit cfg
  runFrames assign c s frames

/-! ## TrackingManager (`src/tracking/tracking_manager.py`)

Timestamps (`datetime`) are modelled as rational seconds, so
`(timestamp - entry_time).total_seconds()` becomes subtraction in `Frac`.
The zone collaborator (`ZoneManager` / `ZoneDetector.point_in_polygon_cv2`,
which delegates to `cv2.pointPolygonTest`) is abstracted: the manager is
parameterised by the zone list and a point-in-polygon predicate.
Callbacks are modelled by opaque registration tokens; the manager's output
includes the ordered list of callback invocations it performs. -/

/-- `Zone` (`src/core/zones/zone_models.py`); fields the manager reads. -/
structure Zone where
  zone_id : ℕ
  camera_id : ℕ
  name : String
  active : Bool
  polygon_coords : List (ℤ × ℤ)
deriving DecidableEq

/-- `TrackStatus` (`src/tracking/tracking_models.py`). -/
inductive TrackStatus where
  | active
  | lost
  | finished
deriving DecidableEq

/-- `TrackedObject` output DTO. -/
structure TrackedObject where
  track_id : ℕ
  camera_id : ℕ
  class_id : ℤ
  class_name : String
  bbox : Vec
  confidence : Frac
  status : TrackStatus
  frame_id : ℕ
  age : ℕ
  time_since_update : ℕ := 0
  center_x : Frac
  center_y : Frac
  zone_id : Option ℕ
  zone_name : Option String
  first_seen : Frac
  last_seen : Frac
deriving DecidableEq

/-- `ZoneTransition` output DTO. -/
structure ZoneTransition where
  transition_id : Option ℕ := none
  track_id : ℕ
  camera_id : ℕ
  from_zone_id : Option ℕ
  from_zone_name : Option String
  to_zone_id : Option ℕ
  to_zone_name : Option String
  transition_time : Frac
  duration_in_prev_zone : Option Frac
deriving DecidableEq

/-- One synchronous callback invocation: `cb` is the registration token of
the callback (its position in the registration list). -/
inductive CallbackEvent where
  | transitionCall (cb : ℕ) (tr : ZoneTransition)
  | trackCall (cb : ℕ) (obj : TrackedObject)
deriving DecidableEq

/-- Association-list lookup with decidable key equality: Python's
`dict.get` / `dict[...]` read. -/
def lookupKey {α β : Type} [DecidableEq α] (k : α) : List (α × β) → Option β
  | [] => none
  | p :: ps => if p.1 = k then some p.2 else lookupKey k ps

/-- The manager's zone-history maps `track_zones` / `track_zone_times`,
keyed by `(camera_id, track_id)`. An absent key and a key stored with
`None` both read back as `None` via `dict.get`, but only presence matters
for `track_id in self.track_zone_times[camera_id]`. -/
structure ZoneMaps where
  track_zones : List ((ℕ × ℕ) × Option ℕ)
  track_zone_times : List ((ℕ × ℕ) × Frac)
deriving DecidableEq

/-- Python dict assignment: replace in place, or append a new key. -/
def assocSet {α β : Type} [DecidableEq α] (k : α) (v : β) (l : List (α × β)) :
    List (α × β) :=
  if (lookupKey k l).isSome then
    l.map (fun p => if p.1 = k then (k, v) else p)
  else l ++ [(k, v)]

/-- `ZoneManager.get_zones_by_camera`: all zones of the camera, in
insertion order (no `active` filter in the source). -/
def getZonesByCamera (zones : List Zone) (cam : ℕ) : List Zone :=
  zones.filter (fun z => z.camera_id = cam)

/-- `ZoneManager.get_zone`: lookup by id. -/
def getZone (zones : List Zone) (zid : ℕ) : Option Zone :=
  zones.find? (fun z => z.zone_id = zid)

/-- `TrackingManager._get_track_status`. -/
def getTrackStatus (t : Track) : TrackStatus :=
  if t.state = .Tracked then .active
  else if t.state = .Lost then .lost
  else .finished

/-- `TrackingManager._create_transition`. -/
def createTransition (allZones : List Zone) (maps : ZoneMaps)
    (camera_id track_id : ℕ) (from_zone_id to_zone_id : Option ℕ)
    (timestamp : Frac) : ZoneTransition :=
  let duration : Option Frac :=
    if from_zone_id.isSome then
      match lookupKey (camera_id, track_id) maps.track_zone_times with
      | some entryTime => some (timestamp - entryTime)
      | none => none
    else none
  { track_id := track_id, camera_id := camera_id,
    from_zone_id := from_zone_id,
    from_zone_name := from_zone_id.bind (fun z => (getZone allZones z).map Zone.name),
    to_zone_id := to_zone_id,
    to_zone_name := to_zone_id.bind (fun z => (getZone allZones z).map Zone.name),
    transition_time := timestamp, duration_in_prev_zone := duration }

/-- The raw-bbox centroid `(center_x, center_y)` computed in
`TrackingManager.update` (lines 126-127) — from `track.bbox`, not from the
Kalman-smoothed `tlwh`/`tlbr`. -/
def trackCenter (track : Track) : Frac × Frac :=
  ((track.bbox.getD 0 0 + track.bbox.getD 2 0) / 2,
   (track.bbox.getD 1 0 + track.bbox.getD 3 0) / 2)

/-- Zone resolution of `TrackingManager.update` (lines 129-133): the first
zone in iteration order whose polygon contains the centroid. -/
def resolveZone (inPoly : (Frac × Frac) → List (ℤ × ℤ) → Bool) (zones : List Zone)
    (c : Frac × Frac) : Option Zone :=
  zones.find? (fun z => inPoly c z.polygon_coords)

/-- `self.track_zones[camera_id].get(track.track_id)`: an absent key and a
stored `None` both read as `None`. -/
def prevZoneId (maps : ZoneMaps) (camera_id track_id : ℕ) : Option ℕ :=
  (lookupKey (camera_id, track_id) maps.track_zones).getD none

/-- The body of the per-track loop of `TrackingManager.update` (lines
124-186): zone resolution from the raw `track.bbox` centroid, transition
detection and map update, `TrackedObject` construction, callback
invocations (transition callbacks first, then tracking callbacks, each in
registration order). -/
def processTrack (inPoly : (Frac × Frac) → List (ℤ × ℤ) → Bool)
    (allZones : List Zone) (zones : List Zone) (cbT cbK : List ℕ)
    (camera_id : ℕ) (timestamp : Frac) (tracker_frame_id : ℕ)
    (maps : ZoneMaps) (track : Track) :
    ZoneMaps × TrackedObject × List CallbackEvent :=
  let center_x := (trackCenter track).1
  let center_y := (trackCenter track).2
  let current_zone := resolveZone inPoly zones (trackCenter track)
  let prev_zone_id := prevZoneId maps camera_id track.track_id
  let current_zone_id := current_zone.map Zone.zone_id
  let transition := createTransition allZones maps camera_id track.track_id
    prev_zone_id current_zone_id timestamp
  let maps1 :=
    if prev_zone_id ≠ current_zone_id then
      { track_zones := assocSet (camera_id, track.track_id) current_zone_id
          maps.track_zones,
        track_zone_times := assocSet (camera_id, track.track_id) timestamp
          maps.track_zone_times }
    else maps
  let transitionEvents :=
    if prev_zone_id ≠ current_zone_id then
      cbT.map (fun cb => CallbackEvent.transitionCall cb transition)
    else []
  let obj : TrackedObject :=
    { track_id := track.track_id, camera_id := camera_id,
      class_id := track.class_id, class_name := "person",
      bbox := [track.bbox.getD 0 0, track.bbox.getD 1 0,
               track.bbox.getD 2 0, track.bbox.getD 3 0],
      confidence := track.score, status := getTrackStatus track,
      frame_id := tracker_frame_id, age := track.tracklet_len,
      center_x := center_x, center_y := center_y,
      zone_id := current_zone.map Zone.zone_id,
      zone_name := current_zone.map Zone.name,
      first_seen := timestamp, last_seen := timestamp }
  (maps1, obj, transitionEvents ++ cbK.map (fun cb => CallbackEvent.trackCall cb obj))

/-- The whole per-track loop of `TrackingManager.update`. -/
def processTracks (inPoly : (Frac × Frac) → List (ℤ × ℤ) → Bool)
    (allZones : List Zone) (zones : List Zone) (cbT cbK : List ℕ)
    (camera_id : ℕ) (timestamp : Frac) (tracker_frame_id : ℕ) :
    ZoneMaps → List Track → ZoneMaps × List TrackedObject × List CallbackEvent
  | maps, [] => (maps, [], [])
  | maps, t :: ts =>
    let r1 := processTrack inPoly allZones zones cbT cbK
      camera_id timestamp tracker_frame_id maps t
    let r2 := processTracks inPoly allZones zones cbT cbK
      camera_id timestamp tracker_frame_id r1.1 ts
    (r2.1, r1.2.1 :: r2.2.1, r1.2.2 ++ r2.2.2)

/-- `TrackingManager` state: per-camera trackers plus the zone-history
maps; the tracker construction parameters are stored at init. -/
structure TMState where
  cfg : TrackerConfig
  trackers : List (ℕ × BTState)
  maps : ZoneMaps
deriving DecidableEq

def tmInit (cfg : TrackerConfig) : TMState :=
  { cfg := cfg, trackers := [], maps := { track_zones := [], track_zone_times := [] } }

/-- `TrackingManager.update` for one call: lazily constructs the camera's
tracker (`add_camera` runs `ByteTracker.__init__`, which resets the global
`Track._count` — hence the returned counter), drives `ByteTracker.update`,
then enriches each returned track. Returns the new counter, the new
manager state, the `TrackedObject` list and the ordered callback
invocations. -/
def managerUpdate (assign : Assign) (inPoly : (Frac × Frac) → List (ℤ × ℤ) → Bool)
    (allZones : List Zone) (cbT cbK : List ℕ) (count : ℕ) (st : TMState)
    (camera_id : ℕ) (dets : List Detection) (timestamp : Frac) :
    Except String (ℕ × TMState × List TrackedObject × List CallbackEvent) :=
  let trkC :=
    match lookupKey camera_id st.trackers with
    | some t => (t, count)
    | none => byteTrackerInit st.cfg
  match btUpdate assign trkC.2 trkC.1 dets with
  | .error e => .error e
  | .ok (count1, trk1, tracks) =>
    let zones := getZonesByCamera allZones camera_id
    let res := processTracks inPoly allZones zones cbT cbK
      camera_id timestamp trk1.frame_id st.maps tracks
    .ok (count1,
      { st with
          trackers := assocSet camera_id trk1 st.trackers,
          maps := res.1 },
      res.2.1, res.2.2)

instance : Inhabited TrackedObject :=
  ⟨{ track_id := 0, camera_id := 0, class_id := 0, class_name := "",
     bbox := [], confidence := 0, status := .finished, frame_id := 0,
     age := 0, center_x := 0, center_y := 0, zone_id := none,
     zone_name := none, first_seen := 0, last_seen := 0 }⟩

/-- The `TrackedObject` list of a `TrackingManager.update` result (empty if
the call raised). -/
def objsOf (r : Except String (ℕ × TMState × List TrackedObject × List CallbackEvent)) :
    List TrackedObject :=
  match r with
  | .ok v => v.2.2.1
  | .error _ => []

/-- The manager state of a `TrackingManager.update` result. -/
def tmStateOf (r : Except String (ℕ × TMState × List TrackedObject × List CallbackEvent)) :
    TMState :=
  match r with
  | .ok v => v.2.1
  | .error _ => tmInit {}

instance {ε α : Type} [DecidableEq ε] [DecidableEq α] : DecidableEq (Except ε α) := fun a b =>
  match a, b with
  | .error e, .error f =>
    if h : e = f then .isTrue (congrArg Except.error h)
    else .isFalse (fun hc => h (by cases hc; rfl))
  | .error _, .ok _ => .isFalse (fun hc => Except.noConfusion hc)
  | .ok _, .error _ => .isFalse (fun hc => Except.noConfusion hc)
  | .ok x, .ok y =>
    if h : x = y then .isTrue (congrArg Except.ok h)
    else .isFalse (fun hc => h (by cases hc; rfl))

/-- The per-frame outputs of a tracker run (empty on a raised exception). -/
def framesOf (r : Except String (ℕ × BTState × List (List Track))) :
    List (List Track) :=
  match r with
  | .ok v => v.2.2
  | .error _ => []

/-- The final tracker state of a run. -/
def stateOf (r : Except String (ℕ × BTState × List (List Track))) : BTState :=
  match r with
  | .ok v => v.2.1
  | .error _ => (byteTrackerInit {}).1

/-- Whether a run returned normally. -/
def isOkB {ε α : Type} (r : Except ε α) : Bool :=
  match r with
  | .ok _ => true
  | .error _ => false

/-! ## Helper lemmas -/

theorem poolGet_set_self (pool : List Track) (i : ℕ) (a : Track)
    (h : i < pool.length) : poolGet (pool.set i a) i = a := by
  simp [poolGet, List.getD_eq_getElem?_getD, List.getElem?_set_self h]

theorem poolGet_set_ne (pool : List Track) (i j : ℕ) (a : Track)
    (h : i ≠ j) : poolGet (pool.set i a) j = poolGet pool j := by
  simp [poolGet, List.getD_eq_getElem?_getD, List.getElem?_set_ne h]

theorem removeExpired_cons (fid mtl : ℕ) (pool : List Track) (j : ℕ)
    (rest : List ℕ) (acc : List Track) :
    removeExpired fid mtl pool (j :: rest) acc =
      if isExpired fid mtl (poolGet pool j) = true then
        removeExpired fid mtl (pool.set j (markRemoved (poolGet pool j))) rest
          (acc ++ [markRemoved (poolGet pool j)])
      else removeExpired fid mtl pool rest acc := by
  by_cases h : isExpired fid mtl (poolGet pool j) = true <;>
    simp [removeExpired, List.foldl_cons, h]

theorem removeExpired_get_not_mem (fid mtl : ℕ) (pool : List Track)
    (idxs : List ℕ) (acc : List Track) (i : ℕ) (h : i ∉ idxs) :
    poolGet (removeExpired fid mtl pool idxs acc).1 i = poolGet pool i := by
  induction idxs generalizing pool acc with
  | nil => rfl
  | cons j rest ih =>
    have hij : j ≠ i := fun e => h (e ▸ List.mem_cons_self j rest)
    have hrest : i ∉ rest := fun e => h (List.mem_cons_of_mem j e)
    rw [removeExpired_cons]
    by_cases hj : isExpired fid mtl (poolGet pool j) = true
    · rw [if_pos hj, ih _ _ hrest, poolGet_set_ne _ _ _ _ hij]
    · rw [if_neg hj, ih _ _ hrest]

theorem removeExpired_get_mem (fid mtl : ℕ) (pool : List Track)
    (idxs : List ℕ) (acc : List Track) (i : ℕ) (hnd : idxs.Nodup)
    (hm : i ∈ idxs) (hl : i < pool.length) :
    poolGet (removeExpired fid mtl pool idxs acc).1 i =
      if isExpired fid mtl (poolGet pool i) = true then
        markRemoved (poolGet pool i)
      else poolGet pool i := by
  induction idxs generalizing pool acc with
  | nil => cases hm
  | cons j rest ih =>
    obtain ⟨hjrest, hnd2⟩ := List.nodup_cons.mp hnd
    rw [removeExpired_cons]
    rcases List.mem_cons.mp hm with rfl | hmem
    · by_cases hj : isExpired fid mtl (poolGet pool i) = true
      · rw [if_pos hj, if_pos hj,
            removeExpired_get_not_mem _ _ _ _ _ _ hjrest,
            poolGet_set_self _ _ _ hl]
      · rw [if_neg hj, if_neg hj, removeExpired_get_not_mem _ _ _ _ _ _ hjrest]
    · have hij : j ≠ i := fun e => hjrest (e ▸ hmem)
      by_cases hj : isExpired fid mtl (poolGet pool j) = true
      · rw [if_pos hj,
            ih _ _ hnd2 hmem (by rw [List.length_set]; exact hl),
            poolGet_set_ne _ _ _ _ hij]
      · rw [if_neg hj, ih _ _ hnd2 hmem hl]

theorem removeExpired_removed (fid mtl : ℕ) (pool : List Track)
    (idxs : List ℕ) (acc : List Track) (hnd : idxs.Nodup) :
    (removeExpired fid mtl pool idxs acc).2 =
      acc ++ (idxs.filter (fun j => isExpired fid mtl (poolGet pool j))).map
        (fun j => markRemoved (poolGet pool j)) := by
  induction idxs generalizing pool acc with
  | nil => simp [removeExpired]
  | cons j rest ih =>
    obtain ⟨hjrest, hnd2⟩ := List.nodup_cons.mp hnd
    rw [removeExpired_cons]
    by_cases hj : isExpired fid mtl (poolGet pool j) = true
    · rw [if_pos hj, ih _ _ hnd2]
      have hpg : ∀ x ∈ rest,
          poolGet (pool.set j (markRemoved (poolGet pool j))) x = poolGet pool x :=
        fun x hx => poolGet_set_ne _ _ _ _ (fun e => hjrest (e ▸ hx))
      rw [List.filter_congr (fun x hx => by rw [hpg x hx]),
          List.map_congr_left (fun x hx => by
            rw [hpg x (List.mem_of_mem_filter hx)])]
      simp [List.filter_cons, hj]
    · rw [if_neg hj, ih _ _ hnd2]
      simp [List.filter_cons, hj]

theorem removeExpired_snd_append (fid mtl : ℕ) (pool : List Track)
    (idxs : List ℕ) (acc : List Track) :
    ∃ tl, (removeExpired fid mtl pool idxs acc).2 = acc ++ tl := by
  induction idxs generalizing pool acc with
  | nil => exact ⟨[], by simp [removeExpired]⟩
  | cons j rest ih =>
    rw [removeExpired_cons]
    by_cases hj : isExpired fid mtl (poolGet pool j) = true
    · rw [if_pos hj]
      obtain ⟨tl, htl⟩ := ih (pool.set j (markRemoved (poolGet pool j)))
        (acc ++ [markRemoved (poolGet pool j)])
      exact ⟨markRemoved (poolGet pool j) :: tl, by simp [htl]⟩
    · rw [if_neg hj]; exact ih pool acc

theorem lookupKey_assocSet_self {α β : Type} [DecidableEq α] (k : α) (v : β)
    (l : List (α × β)) : lookupKey k (assocSet k v l) = some v := by
  unfold assocSet
  by_cases h : (lookupKey k l).isSome = true
  · rw [if_pos h]
    induction l with
    | nil => simp [lookupKey] at h
    | cons p ps ih =>
      by_cases hp : p.1 = k
      · simp [lookupKey, hp]
      · have h2 : (lookupKey k ps).isSome = true := by
          simpa [lookupKey, hp] using h
        simpa [lookupKey, hp] using ih h2
  · rw [if_neg h]
    induction l with
    | nil => simp [lookupKey]
    | cons p ps ih =>
      have hp : ¬ p.1 = k := by
        intro hk
        exact h (by simp [lookupKey, hk])
      have h2 : ¬ (lookupKey k ps).isSome = true := by
        intro hk
        exact h (by simpa [lookupKey, hp] using hk)
      simpa [lookupKey, hp] using ih h2

/-- Bridging the truncated `int(frame_rate / 30.0 * track_buffer)` with the
real-valued formula: for an integer frame gap `g`, exceeding the floor is
the same as exceeding the exact rational value. -/
theorem natdiv_lt_iff_rat (fr tb : ℕ) (g : ℤ) :
    ((fr * tb / 30 : ℕ) : ℤ) < g ↔ (fr : ℚ) / 30 * (tb : ℚ) < (g : ℚ) := by
  have hq : (fr : ℚ) / 30 * (tb : ℚ) = ((fr * tb : ℕ) : ℚ) / 30 := by
    push_cast; ring
  have hfl : fr * tb / 30 = ⌊((fr * tb : ℕ) : ℚ) / ((30 : ℕ) : ℚ)⌋₊ := by
    rw [Nat.floor_div_nat, Nat.floor_natCast]
  rw [hq]
  constructor
  · intro h
    have hz : ((fr * tb / 30 : ℕ) : ℤ) + 1 ≤ g := Int.lt_iff_add_one_le.mp h
    have h1 : ((fr * tb / 30 : ℕ) : ℚ) + 1 ≤ (g : ℚ) := by
      have h5 := (@Int.cast_le ℚ _ _ _).mpr hz
      push_cast at h5
      exact h5
    have h2 : ((fr * tb : ℕ) : ℚ) / 30 < ((fr * tb / 30 : ℕ) : ℚ) + 1 := by
      rw [hfl]
      have := Nat.lt_floor_add_one (((fr * tb : ℕ) : ℚ) / ((30 : ℕ) : ℚ))
      simpa using this
    linarith
  · intro h
    have h0 : (0 : ℚ) ≤ ((fr * tb : ℕ) : ℚ) / 30 := by positivity
    have h1 : ((fr * tb / 30 : ℕ) : ℚ) ≤ ((fr * tb : ℕ) : ℚ) / 30 := by
      rw [hfl]
      have := Nat.floor_le h0
      simpa using this
    have h2 : ((fr * tb / 30 : ℕ) : ℚ) < (g : ℚ) := lt_of_le_of_lt h1 h
    have h4 : (((fr * tb / 30 : ℕ) : ℤ) : ℚ) < (g : ℚ) := by
      push_cast
      push_cast at h2
      exact h2
    exact_mod_cast h4

/-- Transitivity `x < c → c ≤ t → x < t` for well-formed fractions
(positive denominators). -/
theorem fracLt_of_lt_of_le {x c t : Frac} (hx : 0 < x.den) (hc : 0 < c.den)
    (ht : 0 < t.den) (h1 : x < c) (h2 : c ≤ t) : x < t := by
  have h1Z : x.num * (c.den : ℤ) < c.num * (x.den : ℤ) := by
    have := of_decide_eq_true h1
    exact_mod_cast this
  have h2Z : c.num * (t.den : ℤ) ≤ t.num * (c.den : ℤ) := by
    have := of_decide_eq_true h2
    exact_mod_cast this
  have hxZ : (0 : ℤ) < (x.den : ℤ) := by exact_mod_cast hx
  have hcZ : (0 : ℤ) < (c.den : ℤ) := by exact_mod_cast hc
  have htZ : (0 : ℤ) < (t.den : ℤ) := by exact_mod_cast ht
  show qltB x t = true
  have goalZ : x.num * (t.den : ℤ) < t.num * (x.den : ℤ) := by
    have e1 : x.num * (c.den : ℤ) * (t.den : ℤ) < c.num * (x.den : ℤ) * (t.den : ℤ) :=
      mul_lt_mul_of_pos_right h1Z htZ
    have e2 : c.num * (t.den : ℤ) * (x.den : ℤ) ≤ t.num * (c.den : ℤ) * (x.den : ℤ) :=
      mul_le_mul_of_nonneg_right h2Z (le_of_lt hxZ)
    have e3 : x.num * (t.den : ℤ) * (c.den : ℤ) < t.num * (x.den : ℤ) * (c.den : ℤ) := by
      nlinarith
    exact lt_of_mul_lt_mul_right e3 (le_of_lt hcZ)
  simpa [qltB] using goalZ

/-- Strict asymmetry of the fraction order (pure cross-multiplication). -/
theorem fracLt_asymm {x y : Frac} (h : x < y) : ¬ y < x := by
  intro h2
  have h1Z : x.num * (y.den : ℤ) < y.num * (x.den : ℤ) := by
    have := of_decide_eq_true h
    exact_mod_cast this
  have h2Z : y.num * (x.den : ℤ) < x.num * (y.den : ℤ) := by
    have := of_decide_eq_true h2
    exact_mod_cast this
  exact absurd h1Z (not_lt_of_lt h2Z)

theorem mem_processTracks_objs (inPoly : (Frac × Frac) → List (ℤ × ℤ) → Bool)
    (allZones zones : List Zone) (cbT cbK : List ℕ) (cam : ℕ) (ts : Frac)
    (fid : ℕ) (tracks : List Track) (maps : ZoneMaps) (obj : TrackedObject)
    (h : obj ∈ (processTracks inPoly allZones zones cbT cbK cam ts fid maps tracks).2.1) :
    ∃ maps2 t, t ∈ tracks ∧
      obj = (processTrack inPoly allZones zones cbT cbK cam ts fid maps2 t).2.1 := by
  induction tracks generalizing maps with
  | nil => simp [processTracks] at h
  | cons t ts2 ih =>
    simp only [processTracks] at h
    rcases List.mem_cons.mp h with h1 | h2
    · exact ⟨maps, t, List.mem_cons_self t ts2, h1⟩
    · obtain ⟨m2, t2, ht2, e⟩ := ih _ h2
      exact ⟨m2, t2, List.mem_cons_of_mem _ ht2, e⟩

theorem mem_managerUpdate_objs (assign : Assign)
    (inPoly : (Frac × Frac) → List (ℤ × ℤ) → Bool) (allZones : List Zone)
    (cbT cbK : List ℕ) (count : ℕ) (st : TMState) (cam : ℕ)
    (dets : List Detection) (ts : Frac) (obj : TrackedObject)
    (h : obj ∈ objsOf (managerUpdate assign inPoly allZones cbT cbK count st cam dets ts)) :
    ∃ fid maps t,
      obj = (processTrack inPoly allZones (getZonesByCamera allZones cam)
        cbT cbK cam ts fid maps t).2.1 := by
  simp only [managerUpdate] at h
  split at h
  · simp [objsOf] at h
  · simp only [objsOf] at h
    obtain ⟨m2, t2, _, e⟩ := mem_processTracks_objs _ _ _ _ _ _ _ _ _ _ _ h
    exact ⟨_, m2, t2, e⟩

/-! ## Claims -/

/-- The ids handed out by `n` successive `Track.activate` calls threading
the global counter (no other constructor or `reset` in between). -/
def activateIds (t : Track) (frame : ℕ) : ℕ → ℕ → List ℕ
  | _, 0 => []
  | count, n + 1 =>
    let r := activate t count frame
    r.1.track_id :: activateIds t frame r.2 n

/-- C1 (counterexample): the id counter is process-global and
`ByteTracker.__init__` resets it to 0 (`(byteTrackerInit _).2 = 0`), so the
claimed monotonicity fails across an interleaved construction. Sequence:
instance A is constructed (counter 0); A's first activation (detection at
`[0,0,10,10]`) receives id 1 and leaves the counter at 1; a second
instance B is constructed, resetting the shared counter to 0; A's next
activation — a different physical object, detected at
`[100,100,110,110]` — again receives id 1, which is not greater than the
previously assigned id 1. -/
theorem c1_track_id_reuse_counterexample :
    (byteTrackerInit {}).2 = 0
    ∧ (activate (mkDetTrack { bbox := [0,0,10,10], confidence := 9/10, class_id := 0 } 1)
        (byteTrackerInit {}).2 1).1.track_id = 1
    ∧ (activate (mkDetTrack { bbox := [0,0,10,10], confidence := 9/10, class_id := 0 } 1)
        (byteTrackerInit {}).2 1).2 = 1
    ∧ (activate (mkDetTrack { bbox := [100,100,110,110], confidence := 9/10, class_id := 0 } 2)
        (byteTrackerInit {}).2 2).1.track_id = 1
    ∧ ¬ ((activate (mkDetTrack { bbox := [0,0,10,10], confidence := 9/10, class_id := 0 } 1)
          (byteTrackerInit {}).2 1).1.track_id <
        (activate (mkDetTrack { bbox := [100,100,110,110], confidence := 9/10, class_id := 0 } 2)
          (byteTrackerInit {}).2 2).1.track_id) := by
  decide

/-- C1 (amended): within one `ByteTracker` instance, as long as no other
`ByteTracker` is constructed and `reset()` is not called in between (both
zero the process-global `Track._count`), each `Track.activate` call
returns `count + 1` — strictly greater than the current counter, hence
strictly greater than every previously assigned id — and any run of
consecutive activations yields strictly increasing, pairwise distinct
ids. -/
theorem c1_activate_ids_strictly_increasing (t : Track) (frame count n : ℕ) :
    (activate t count frame).1.track_id = count + 1
    ∧ count < (activate t count frame).1.track_id
    ∧ activateIds t frame count n = (List.range n).map (fun k => count + k + 1)
    ∧ List.Pairwise (· < ·) (activateIds t frame count n) := by
  have key : ∀ (m c : ℕ),
      activateIds t frame c m = (List.range m).map (fun k => c + k + 1) := by
    intro m
    induction m with
    | zero => intro c; rfl
    | succ m ih =>
      intro c
      show (c + 1) :: activateIds t frame (c + 1) m = _
      rw [ih (c + 1), List.range_succ_eq_map, List.map_cons, List.map_map]
      refine congrArg₂ _ rfl (List.map_congr_left ?_)
      intro k _
      simp [Nat.succ_eq_add_one]
      omega
  refine ⟨rfl, Nat.lt_succ_self count, key n count, ?_⟩
  rw [key n count]
  exact List.Pairwise.map _ (fun a b hab => by omega) (List.pairwise_lt_range n)

/-- C2 (counterexample): a detection whose confidence equals `track_thresh`
exactly (here `0.5`) is excluded from BOTH partitions — `update` uses the
strict tests `score > track_thresh` and `0.1 < score < track_thresh` — so
on a fresh tracker it can neither match nor spawn a track: the frame
returns no tracks at all, contradicting the claimed high-confidence
classification. -/
theorem c2_boundary_score_dropped_counterexample :
    classifyHigh [{ bbox := [0,0,10,10], confidence := 1/2, class_id := 0 }] ((1:Frac)/2) = []
    ∧ classifySecond [{ bbox := [0,0,10,10], confidence := 1/2, class_id := 0 }] ((1:Frac)/2) = []
    ∧ runTracker greedyAssign {}
        [[{ bbox := [0,0,10,10], confidence := 1/2, class_id := 0 }]] =
      .ok (0, { (byteTrackerInit {}).1 with frame_id := 1 }, [[]]) := by
  decide

/-- C2 (amended): the high partition is exactly `score > track_thresh`
(strict) and the second partition exactly `0.1 < score < track_thresh`
(both strict), so `score == track_thresh` joins neither; and — provided
`track_thresh ≥ 0.1` and the fractions are well-formed (positive
denominators) — a detection with `score < 0.1` joins neither partition,
hence never participates in any matching stage. -/
theorem c2_partition_boundaries (dets : List Detection) (d : Detection)
    (thresh : Frac) (hdd : 0 < d.confidence.den) (htd : 0 < thresh.den) :
    (d ∈ classifyHigh dets thresh ↔ d ∈ dets ∧ thresh < d.confidence)
    ∧ (d ∈ classifySecond dets thresh ↔
        d ∈ dets ∧ (1:Frac)/10 < d.confidence ∧ d.confidence < thresh)
    ∧ ((1:Frac)/10 ≤ thresh → d.confidence < (1:Frac)/10 →
        d ∉ classifyHigh dets thresh ∧ d ∉ classifySecond dets thresh) := by
  have hhigh : d ∈ classifyHigh dets thresh ↔ d ∈ dets ∧ thresh < d.confidence := by
    simp [classifyHigh, List.mem_filter]
  have hsec : d ∈ classifySecond dets thresh ↔
      d ∈ dets ∧ (1:Frac)/10 < d.confidence ∧ d.confidence < thresh := by
    simp [classifySecond, List.mem_filter]
  refine ⟨hhigh, hsec, ?_⟩
  intro hthr hlow
  constructor
  · rw [hhigh]
    rintro ⟨-, hgt⟩
    have hxt : d.confidence < thresh :=
      fracLt_of_lt_of_le hdd (by decide) htd hlow hthr
    exact fracLt_asymm hxt hgt
  · rw [hsec]
    rintro ⟨-, hgt, -⟩
    exact fracLt_asymm hlow hgt

/-- Concrete instantiation for `c2_partition_boundaries`. -/
theorem c2_partition_boundaries_witness :
    (0 < ({ bbox := [0,0,10,10], confidence := 1/20, class_id := 0 } : Detection).confidence.den)
    ∧ (0 < ((1:Frac)/2).den)
    ∧ (({ bbox := [0,0,10,10], confidence := 1/20, class_id := 0 } : Detection) ∈
          classifyHigh [{ bbox := [0,0,10,10], confidence := 1/20, class_id := 0 }] ((1:Frac)/2)
        ↔ ({ bbox := [0,0,10,10], confidence := 1/20, class_id := 0 } : Detection) ∈
            [({ bbox := [0,0,10,10], confidence := 1/20, class_id := 0 } : Detection)]
          ∧ (1:Frac)/2 < ({ bbox := [0,0,10,10], confidence := 1/20, class_id := 0 } : Detection).confidence)
    ∧ (({ bbox := [0,0,10,10], confidence := 1/20, class_id := 0 } : Detection) ∈
          classifySecond [{ bbox := [0,0,10,10], confidence := 1/20, class_id := 0 }] ((1:Frac)/2)
        ↔ ({ bbox := [0,0,10,10], confidence := 1/20, class_id := 0 } : Detection) ∈
            [({ bbox := [0,0,10,10], confidence := 1/20, class_id := 0 } : Detection)]
          ∧ (1:Frac)/10 < ({ bbox := [0,0,10,10], confidence := 1/20, class_id := 0 } : Detection).confidence
          ∧ ({ bbox := [0,0,10,10], confidence := 1/20, class_id := 0 } : Detection).confidence < (1:Frac)/2)
    ∧ ((1:Frac)/10 ≤ (1:Frac)/2 →
        ({ bbox := [0,0,10,10], confidence := 1/20, class_id := 0 } : Detection).confidence < (1:Frac)/10 →
        ({ bbox := [0,0,10,10], confidence := 1/20, class_id := 0 } : Detection) ∉
            classifyHigh [{ bbox := [0,0,10,10], confidence := 1/20, class_id := 0 }] ((1:Frac)/2)
          ∧ ({ bbox := [0,0,10,10], confidence := 1/20, class_id := 0 } : Detection) ∉
            classifySecond [{ bbox := [0,0,10,10], confidence := 1/20, class_id := 0 }] ((1:Frac)/2)) :=
  ⟨by decide, by decide,
    (c2_partition_boundaries _ _ _ (by decide) (by decide)).1,
    (c2_partition_boundaries _ _ _ (by decide) (by decide)).2.1,
    (c2_partition_boundaries _ _ _ (by decide) (by decide)).2.2⟩

/-- Two-frame scenario for C4: camera 1, no zones; frame 1 detects
`[0,0,10,10]`, frame 2 detects the same object shifted to `[1,0,11,10]`
(IoU 9/11 with the prediction, so stage 1 matches and Kalman-updates). -/
def c4Run1 : Except String (ℕ × TMState × List TrackedObject × List CallbackEvent) :=
  managerUpdate greedyAssign (fun _ _ => false) [] [] [] 0 (tmInit {}) 1
    [{ bbox := [0,0,10,10], confidence := 9/10, class_id := 0 }] 100

def c4Run2 : Except String (ℕ × TMState × List TrackedObject × List CallbackEvent) :=
  match c4Run1 with
  | .error e => .error e
  | .ok (c, st, _, _) =>
    managerUpdate greedyAssign (fun _ _ => false) [] [] [] c st 1
      [{ bbox := [1,0,11,10], confidence := 9/10, class_id := 0 }] 101

/-- The single live track of camera 1 after the second C4 frame. -/
def c4Track : Track :=
  ((lookupKey 1 (tmStateOf c4Run2).trackers).getD
    (byteTrackerInit {}).1).tracked_tracks.headD default

/-- C4 (counterexample): after the matched second frame, the emitted
`TrackedObject` carries the raw detection box `[1,0,11,10]` (the track's
`bbox` field) and centroid `x = 6` computed from it, while the
Kalman-smoothed box `Track.tlbr` of the same track differs (its value is
`[105/121, 0, 1315/121, 10]`), so the output is NOT the smoothed box and
the zone-test centroid is NOT derived from the smoothed box. -/
theorem c4_raw_bbox_counterexample :
    (objsOf c4Run2).map TrackedObject.bbox = [[1, 0, 11, 10]]
    ∧ c4Track.bbox = [1, 0, 11, 10]
    ∧ (objsOf c4Run2).map TrackedObject.track_id = [c4Track.track_id]
    ∧ tlbr c4Track ≠ [1, 0, 11, 10]
    ∧ (objsOf c4Run2).map TrackedObject.center_x = [6]
    ∧ ((tlbr c4Track).getD 0 0 + (tlbr c4Track).getD 2 0) / 2 ≠ 6 := by
  set_option maxRecDepth 100000 in decide

/-- C4 (amended): every `TrackedObject` built by the per-track loop of
`TrackingManager.update` carries the track's raw `bbox` field (the last
matched detection box, which `re_activate` does not even refresh), and its
centroid is computed from that same raw box — `Track.tlwh`/`Track.tlbr`
(the Kalman-smoothed box) are never consulted. -/
theorem c4_output_bbox_is_raw (inPoly : (Frac × Frac) → List (ℤ × ℤ) → Bool)
    (allZones zones : List Zone) (cbT cbK : List ℕ) (cam : ℕ) (ts : Frac)
    (fid : ℕ) (maps : ZoneMaps) (track : Track) :
    ((processTrack inPoly allZones zones cbT cbK cam ts fid maps track).2.1.bbox =
        [track.bbox.getD 0 0, track.bbox.getD 1 0,
         track.bbox.getD 2 0, track.bbox.getD 3 0])
    ∧ (processTrack inPoly allZones zones cbT cbK cam ts fid maps track).2.1.center_x =
        (track.bbox.getD 0 0 + track.bbox.getD 2 0) / 2
    ∧ (processTrack inPoly allZones zones cbT cbK cam ts fid maps track).2.1.center_y =
        (track.bbox.getD 1 0 + track.bbox.getD 3 0) / 2 :=
  ⟨rfl, rfl, rfl⟩

/-- C7: determinism. The embedding of `ByteTracker` (construction plus a
whole run over per-frame detection lists) is a pure function of the
configuration, the chosen assignment solver and the input sequence — the
source consults no randomness, time, or other ambient state (the global
id counter is reset by the constructor, so it is determined too) — hence
two runs with the same solver and identical inputs return identical
results: the same `track_id` assignments and the same bboxes, frame by
frame. -/
theorem c7_identical_runs_identical_results (assign : Assign)
    (cfg : TrackerConfig) (frames1 frames2 : List (List Detection))
    (h : frames1 = frames2) :
    runTracker assign cfg frames1 = runTracker assign cfg frames2 := by
  rw [h]

/-- Concrete instantiation for `c7_identical_runs_identical_results`. -/
theorem c7_identical_runs_witness :
    ([[{ bbox := [0,0,10,10], confidence := 9/10, class_id := 0 }]]
        : List (List Detection)) =
      [[{ bbox := [0,0,10,10], confidence := 9/10, class_id := 0 }]]
    ∧ runTracker greedyAssign {}
        [[{ bbox := [0,0,10,10], confidence := 9/10, class_id := 0 }]] =
      runTracker greedyAssign {}
        [[{ bbox := [0,0,10,10], confidence := 9/10, class_id := 0 }]] :=
  ⟨rfl, c7_identical_runs_identical_results greedyAssign {} _ _ rfl⟩

/-- C8: every `TrackedObject` emitted by `TrackingManager.update` has both
`first_seen` and `last_seen` set to the `timestamp` argument of the
current call (the source even annotates `first_seen=timestamp` with
"Approximation"), so `first_seen` never records the track's actual first
sighting and always equals `last_seen`. -/
theorem c8_first_seen_equals_last_seen (assign : Assign)
    (inPoly : (Frac × Frac) → List (ℤ × ℤ) → Bool) (allZones : List Zone)
    (cbT cbK : List ℕ) (count : ℕ) (st : TMState) (cam : ℕ)
    (dets : List Detection) (ts : Frac) (obj : TrackedObject)
    (h : obj ∈ objsOf (managerUpdate assign inPoly allZones cbT cbK count st cam dets ts)) :
    obj.first_seen = ts ∧ obj.last_seen = ts := by
  obtain ⟨fid, maps, t, rfl⟩ :=
    mem_managerUpdate_objs assign inPoly allZones cbT cbK count st cam dets ts obj h
  exact ⟨rfl, rfl⟩

/-- One-frame manager run used by the C8 witness. -/
def c8Run : Except String (ℕ × TMState × List TrackedObject × List CallbackEvent) :=
  managerUpdate greedyAssign (fun _ _ => false) [] [] [] 0 (tmInit {}) 1
    [{ bbox := [0,0,10,10], confidence := 9/10, class_id := 0 }] 100

def c8Obj : TrackedObject := (objsOf c8Run).headD default

/-- Concrete instantiation for `c8_first_seen_equals_last_seen`. -/
theorem c8_first_seen_witness :
    c8Obj ∈ objsOf c8Run ∧ c8Obj.first_seen = 100 ∧ c8Obj.last_seen = 100 :=
  ⟨by set_option maxRecDepth 40000 in decide,
   c8_first_seen_equals_last_seen greedyAssign (fun _ _ => false) [] [] [] 0
     (tmInit {}) 1 [{ bbox := [0,0,10,10], confidence := 9/10, class_id := 0 }]
     100 c8Obj (by set_option maxRecDepth 40000 in decide)⟩

/-- C10: every `TrackedObject` emitted by `TrackingManager.update` has
`class_name = "person"` — the source hard-codes the string (comment:
"Assuming person detection") regardless of the detection's `class_id`. -/
theorem c10_class_name_always_person (assign : Assign)
    (inPoly : (Frac × Frac) → List (ℤ × ℤ) → Bool) (allZones : List Zone)
    (cbT cbK : List ℕ) (count : ℕ) (st : TMState) (cam : ℕ)
    (dets : List Detection) (ts : Frac) (obj : TrackedObject)
    (h : obj ∈ objsOf (managerUpdate assign inPoly allZones cbT cbK count st cam dets ts)) :
    obj.class_name = "person" := by
  obtain ⟨fid, maps, t, rfl⟩ :=
    mem_managerUpdate_objs assign inPoly allZones cbT cbK count st cam dets ts obj h
  rfl

/-- One-frame manager run (non-person `class_id = 7`) for the C10 witness. -/
def c10Run : Except String (ℕ × TMState × List TrackedObject × List CallbackEvent) :=
  managerUpdate greedyAssign (fun _ _ => false) [] [] [] 0 (tmInit {}) 1
    [{ bbox := [0,0,10,10], confidence := 9/10, class_id := 7 }] 100

def c10Obj : TrackedObject := (objsOf c10Run).headD default

/-- Concrete instantiation for `c10_class_name_always_person`: the
detection has `class_id = 7`, yet the output is labelled "person". -/
theorem c10_class_name_witness :
    c10Obj ∈ objsOf c10Run ∧ c10Obj.class_id = 7 ∧ c10Obj.class_name = "person" :=
  ⟨by set_option maxRecDepth 40000 in decide,
   by set_option maxRecDepth 40000 in decide,
   c10_class_name_always_person greedyAssign (fun _ _ => false) [] [] [] 0
     (tmInit {}) 1 [{ bbox := [0,0,10,10], confidence := 9/10, class_id := 7 }]
     100 c10Obj (by set_option maxRecDepth 40000 in decide)⟩

/-- The property of claim C6, at the removal step `removeExpired` (lines
356-360 of `update`, which passes `max_time_lost` from the constructor)
and the eviction filter `filterLostIdx` (line 366): a lost pool entry is
marked `Removed` and dropped from the lost pool exactly when the frame
gap exceeds `frame_rate/30 * track_buffer` (exact rational comparison —
equivalent to the code's truncated integer bound for integer gaps); a
retained entry is unchanged, and `re_activate` with `new_id=False` keeps
the original `track_id`. -/
def C6Prop (cfg : TrackerConfig) (fid : ℕ) (pool : List Track)
    (idxs : List ℕ) (acc : List Track) (i : ℕ) (t nt : Track) (count : ℕ) : Prop :=
  ((poolGet (removeExpired fid (byteTrackerInit cfg).1.max_time_lost pool idxs acc).1 i).state
      = TrackState.Removed ↔
    (cfg.frame_rate : ℚ) / 30 * (cfg.track_buffer : ℚ) <
      (fid : ℚ) - ((poolGet pool i).frame_id : ℚ))
  ∧ (removeExpired fid (byteTrackerInit cfg).1.max_time_lost pool idxs acc).2 =
      acc ++ (idxs.filter (fun j =>
          isExpired fid (byteTrackerInit cfg).1.max_time_lost (poolGet pool j))).map
        (fun j => markRemoved (poolGet pool j))
  ∧ (i ∈ filterLostIdx (removeExpired fid (byteTrackerInit cfg).1.max_time_lost pool idxs acc).1 idxs ↔
      ¬ ((cfg.frame_rate : ℚ) / 30 * (cfg.track_buffer : ℚ) <
        (fid : ℚ) - ((poolGet pool i).frame_id : ℚ)))
  ∧ (¬ isExpired fid (byteTrackerInit cfg).1.max_time_lost (poolGet pool i) = true →
      poolGet (removeExpired fid (byteTrackerInit cfg).1.max_time_lost pool idxs acc).1 i
        = poolGet pool i)
  ∧ (reActivate t nt fid false count).1.track_id = t.track_id

/-- C6: during `ByteTracker.update`, a track in the `Lost` state is marked
`Removed`, appended to `removed_tracks` and evicted from the lost pool
exactly when `current_frame - last_update_frame > max_time_lost`, where
`max_time_lost = int(frame_rate/30 * track_buffer)`; since frame gaps are
integers, the truncation is equivalent to the exact rational bound
`frame_rate/30 * track_buffer`. A `Lost` track still inside the window is
retained unchanged, and re-activation (`new_id=False`, as `update` always
calls it) preserves its original `track_id`. -/
theorem c6_lost_removal_window (cfg : TrackerConfig) (fid : ℕ)
    (pool : List Track) (idxs : List ℕ) (acc : List Track) (i : ℕ)
    (t nt : Track) (count : ℕ) (hnd : idxs.Nodup) (hm : i ∈ idxs)
    (hl : i < pool.length) (hstate : (poolGet pool i).state = TrackState.Lost) :
    C6Prop cfg fid pool idxs acc i t nt count := by
  have hmtl : (byteTrackerInit cfg).1.max_time_lost
      = cfg.frame_rate * cfg.track_buffer / 30 := rfl
  have bridge : ∀ tt : Track,
      (isExpired fid (byteTrackerInit cfg).1.max_time_lost tt = true ↔
        (cfg.frame_rate : ℚ) / 30 * (cfg.track_buffer : ℚ) <
          (fid : ℚ) - (tt.frame_id : ℚ)) := by
    intro tt
    rw [hmtl]
    unfold isExpired
    rw [decide_eq_true_iff]
    have hnat := natdiv_lt_iff_rat cfg.frame_rate cfg.track_buffer
      ((fid : ℤ) - (tt.frame_id : ℤ))
    constructor
    · intro hx
      have h2 := hnat.mp hx
      push_cast at h2 ⊢
      linarith
    · intro hx
      apply hnat.mpr
      push_cast
      push_cast at hx
      linarith
  have hget := removeExpired_get_mem fid ((byteTrackerInit cfg).1.max_time_lost)
    pool idxs acc i hnd hm hl
  refine ⟨?_, removeExpired_removed _ _ _ _ _ hnd, ?_, ?_, rfl⟩
  · rw [hget]
    by_cases hx : isExpired fid (byteTrackerInit cfg).1.max_time_lost (poolGet pool i) = true
    · rw [if_pos hx]
      exact ⟨fun _ => (bridge _).mp hx, fun _ => rfl⟩
    · rw [if_neg hx]
      constructor
      · intro hRem
        rw [hstate] at hRem
        cases hRem
      · intro hq
        exact absurd ((bridge _).mpr hq) hx
  · unfold filterLostIdx
    rw [List.mem_filter, hget]
    by_cases hx : isExpired fid (byteTrackerInit cfg).1.max_time_lost (poolGet pool i) = true
    · rw [if_pos hx]
      constructor
      · rintro ⟨-, hdec⟩
        rw [decide_eq_true_iff] at hdec
        cases hdec
      · intro hq
        exact absurd ((bridge _).mp hx) hq
    · rw [if_neg hx]
      constructor
      · intro _
        intro hq
        exact absurd ((bridge _).mpr hq) hx
      · intro _
        exact ⟨hm, by rw [decide_eq_true_iff]; exact hstate⟩
  · intro hx
    rw [hget, if_neg hx]

/-- The lost track used by the C6 witness (last updated at frame 3). -/
def c6LostTrack : Track :=
  { track_id := 1, bbox := [0,0,10,10], score := 9/10, class_id := 0,
    state := .Lost, frame_id := 3 }

def c6T : Track := { track_id := 4, bbox := [0,0,10,10], score := 9/10, class_id := 0 }

def c6NT : Track := { track_id := 9, bbox := [2,0,12,10], score := 8/10, class_id := 0 }

/-- Concrete instantiation for `c6_lost_removal_window`: default
configuration (`max_time_lost = 30`), frame 100, one lost track last
updated at frame 3. -/
theorem c6_lost_removal_witness :
    ([0] : List ℕ).Nodup ∧ 0 ∈ ([0] : List ℕ)
    ∧ 0 < ([c6LostTrack] : List Track).length
    ∧ (poolGet [c6LostTrack] 0).state = TrackState.Lost
    ∧ C6Prop {} 100 [c6LostTrack] [0] [] 0 c6T c6NT 0 :=
  ⟨by decide, by decide, by decide, by decide,
   c6_lost_removal_window {} 100 _ _ _ _ _ _ _ (by decide) (by decide)
     (by decide) (by decide)⟩

/-- The property of claim C5 on the per-track loop body of
`TrackingManager.update`. With `prev` the stored zone for
`(camera_id, track_id)` and `cur` the freshly resolved zone: on a change
(including to/from "no zone") the loop emits the single synthesized
`ZoneTransition` to every registered transition callback in registration
order, before the tracking callbacks for this track, stores the new zone
and the timestamp, and sets `duration_in_prev_zone` to `timestamp` minus
the stored entry time when a previous zone exists, `none` otherwise; on
no change it emits only tracking callbacks and leaves both maps
untouched. -/
def C5Prop (inPoly : (Frac × Frac) → List (ℤ × ℤ) → Bool)
    (allZones zones : List Zone) (cbT cbK : List ℕ) (cam : ℕ) (ts : Frac)
    (fid : ℕ) (maps : ZoneMaps) (track : Track) : Prop :=
  let res := processTrack inPoly allZones zones cbT cbK cam ts fid maps track
  let prev := prevZoneId maps cam track.track_id
  let cur := (resolveZone inPoly zones (trackCenter track)).map Zone.zone_id
  let tr := createTransition allZones maps cam track.track_id prev cur ts
  (prev ≠ cur →
      res.2.2 = cbT.map (fun cb => CallbackEvent.transitionCall cb tr)
          ++ cbK.map (fun cb => CallbackEvent.trackCall cb res.2.1)
      ∧ lookupKey (cam, track.track_id) res.1.track_zones = some cur
      ∧ lookupKey (cam, track.track_id) res.1.track_zone_times = some ts
      ∧ (prev = none → tr.duration_in_prev_zone = none)
      ∧ (prev ≠ none → ∃ e,
            lookupKey (cam, track.track_id) maps.track_zone_times = some e
            ∧ tr.duration_in_prev_zone = some (ts - e)))
  ∧ (prev = cur →
      res.1 = maps
      ∧ res.2.2 = cbK.map (fun cb => CallbackEvent.trackCall cb res.2.1))

/-- C5: `TrackingManager.update` synthesizes exactly one `ZoneTransition`
for a track precisely when the resolved zone differs from the stored one,
with the claimed duration, callback ordering and map updates. The
hypothesis `hsync` states that the zone and entry-time maps are in sync
(whenever a zone is stored, an entry time is stored), which
`TrackingManager` maintains because it only ever writes the two maps
together. -/
theorem c5_zone_transition_semantics (inPoly : (Frac × Frac) → List (ℤ × ℤ) → Bool)
    (allZones zones : List Zone) (cbT cbK : List ℕ) (cam : ℕ) (ts : Frac)
    (fid : ℕ) (maps : ZoneMaps) (track : Track)
    (hsync : prevZoneId maps cam track.track_id ≠ none →
      (lookupKey (cam, track.track_id) maps.track_zone_times).isSome = true) :
    C5Prop inPoly allZones zones cbT cbK cam ts fid maps track := by
  unfold C5Prop
  constructor
  · intro hne
    refine ⟨?_, ?_, ?_, ?_, ?_⟩
    · show (if prevZoneId maps cam track.track_id ≠
          (resolveZone inPoly zones (trackCenter track)).map Zone.zone_id then
            cbT.map (fun cb => CallbackEvent.transitionCall cb _) else [])
          ++ cbK.map (fun cb => CallbackEvent.trackCall cb _) = _
      rw [if_pos hne]
      rfl
    · show lookupKey (cam, track.track_id)
        (if prevZoneId maps cam track.track_id ≠
            (resolveZone inPoly zones (trackCenter track)).map Zone.zone_id then
          ({ track_zones := assocSet (cam, track.track_id)
                ((resolveZone inPoly zones (trackCenter track)).map Zone.zone_id)
                maps.track_zones,
             track_zone_times := assocSet (cam, track.track_id) ts
                maps.track_zone_times } : ZoneMaps)
         else maps).track_zones = _
      rw [if_pos hne]
      exact lookupKey_assocSet_self _ _ _
    · show lookupKey (cam, track.track_id)
        (if prevZoneId maps cam track.track_id ≠
            (resolveZone inPoly zones (trackCenter track)).map Zone.zone_id then
          ({ track_zones := assocSet (cam, track.track_id)
                ((resolveZone inPoly zones (trackCenter track)).map Zone.zone_id)
                maps.track_zones,
             track_zone_times := assocSet (cam, track.track_id) ts
                maps.track_zone_times } : ZoneMaps)
         else maps).track_zone_times = _
      rw [if_pos hne]
      exact lookupKey_assocSet_self _ _ _
    · intro hnone
      simp [createTransition, hnone]
    · intro hsome
      obtain ⟨e, he⟩ := Option.isSome_iff_exists.mp (hsync hsome)
      refine ⟨e, he, ?_⟩
      obtain ⟨z, hz⟩ := Option.ne_none_iff_exists'.mp hsome
      simp [createTransition, hz, he]
  · intro heq
    constructor
    · show (if prevZoneId maps cam track.track_id ≠
          (resolveZone inPoly zones (trackCenter track)).map Zone.zone_id then _
         else maps) = maps
      rw [if_neg (by simpa using heq)]
    · show (if prevZoneId maps cam track.track_id ≠
          (resolveZone inPoly zones (trackCenter track)).map Zone.zone_id then
            cbT.map (fun cb => CallbackEvent.transitionCall cb _) else [])
          ++ cbK.map (fun cb => CallbackEvent.trackCall cb _) = _
      rw [if_neg (by simpa using heq)]
      rw [List.nil_append]
      rfl

/-- Zone maps for the C5 witness: track 5 of camera 1 was stored in zone 3
since time 50. -/
def c5Maps : ZoneMaps :=
  { track_zones := [((1, 5), some 3)], track_zone_times := [((1, 5), 50)] }

def c5Track : Track :=
  { track_id := 5, bbox := [0,0,10,10], score := 9/10, class_id := 0 }

/-- Concrete instantiation for `c5_zone_transition_semantics`: no zone
resolves for the centroid, so the track leaves zone 3 (a transition to
"no zone") at time 60. -/
theorem c5_zone_transition_witness :
    (prevZoneId c5Maps 1 c5Track.track_id ≠ none →
      (lookupKey (1, c5Track.track_id) c5Maps.track_zone_times).isSome = true)
    ∧ C5Prop (fun _ _ => false) [] [] [7, 8] [9] 1 60 2 c5Maps c5Track :=
  ⟨by decide,
   c5_zone_transition_semantics (fun _ _ => false) [] [] [7, 8] [9] 1 60 2
     c5Maps c5Track (by decide)⟩

/-- C9: across one successful `ByteTracker.update` call the
`removed_tracks` list only ever grows by appending the tracks removed this
frame (`self.removed_tracks.append(track)` is the only write), and only
`reset()` empties it. -/
theorem c9_removed_tracks_append_only (assign : Assign) (count : ℕ)
    (s : BTState) (dets : List Detection) (c1 : ℕ) (s1 : BTState)
    (out : List Track) (h : btUpdate assign count s dets = .ok (c1, s1, out)) :
    (∃ tl, s1.removed_tracks = s.removed_tracks ++ tl)
    ∧ (btReset s).1.removed_tracks = [] := by
  refine ⟨?_, rfl⟩
  simp only [btUpdate] at h
  split at h
  · exact absurd h (by simp)
  · split at h
    · exact absurd h (by simp)
    · split at h
      · exact absurd h (by simp)
      · rw [Except.ok.injEq, Prod.mk.injEq, Prod.mk.injEq] at h
        obtain ⟨-, h2, -⟩ := h
        rw [← h2]
        exact removeExpired_snd_append _ _ _ _ _

/-- Concrete instantiation for `c9_removed_tracks_append_only`: an empty
frame on a fresh tracker succeeds and only bumps `frame_id`. -/
theorem c9_removed_tracks_witness :
    btUpdate greedyAssign 0 (byteTrackerInit {}).1 [] =
      .ok (0, { (byteTrackerInit {}).1 with frame_id := 1 }, [])
    ∧ (∃ tl, ({ (byteTrackerInit {}).1 with frame_id := 1 } : BTState).removed_tracks =
        (byteTrackerInit {}).1.removed_tracks ++ tl)
    ∧ (btReset (byteTrackerInit {}).1).1.removed_tracks = [] :=
  ⟨by decide,
   (c9_removed_tracks_append_only greedyAssign 0 (byteTrackerInit {}).1 [] 0
      { (byteTrackerInit {}).1 with frame_id := 1 } [] (by decide)).1,
   (c9_removed_tracks_append_only greedyAssign 0 (byteTrackerInit {}).1 [] 0
      { (byteTrackerInit {}).1 with frame_id := 1 } [] (by decide)).2⟩

/-- Two-frame run for C3's failing input: frame 1 activates a track from a
detection at `[0,0,10,10]`; frame 2 has one detection at
`[100,100,110,110]` whose IoU with the predicted track is 0, below every
threshold. -/
def c3CrashRun : Except String (ℕ × BTState × List (List Track)) :=
  runTracker greedyAssign {}
    [[{ bbox := [0,0,10,10], confidence := 9/10, class_id := 0 }],
     [{ bbox := [100,100,110,110], confidence := 9/10, class_id := 0 }]]

/-- Two-frame run for C3's empty-frame part: frame 2 has no detections. -/
def c3EmptyRun : Except String (ℕ × BTState × List (List Track)) :=
  runTracker greedyAssign {}
    [[{ bbox := [0,0,10,10], confidence := 9/10, class_id := 0 }], []]

/-- C3 (code bug): with both tracks and detections nonempty but no pair
reaching the IoU threshold, every solver branch of `_matching` produces an
empty match list; `np.array([])` then has shape `(0,)` and `matches[:, 0]`
(line 437) raises `IndexError`, so `update` raises — contradicting the
claim (and §7 of the spec, "never raises"), while the clear intent of the
early-return and of the unmatched-index bookkeeping is to handle empty
match sets. The empty-frame part of the claim does hold: a frame with
zero detections returns normally, the live track is predicted, marked
`Lost` (its state) and entered into the lost pool with its id. -/
theorem c3_update_raises_on_unmatched_frame :
    c3CrashRun = .error matchingIndexError
    ∧ isOkB c3EmptyRun = true
    ∧ (framesOf c3EmptyRun).map (fun l => l.map Track.track_id) = [[1], [1]]
    ∧ (stateOf c3EmptyRun).lost_tracks.map Track.state = [.Lost]
    ∧ (stateOf c3EmptyRun).lost_tracks.map Track.track_id = [1] := by
  set_option maxRecDepth 100000 in decide
